import Mathlib

/-!
Verification development for the mintos queue/worker core.

The definitions below are shallow embeddings of the TypeScript sources:
* `src/app/lib/redis.ts` — queue-store primitives and queue operations;
* `src/app/lib/webhook.ts` — webhook signature verification;
* `src/app/workers/mint-worker.ts` — worker loop, pipeline orchestration,
  health reporting, `fetchWithRetry`;
* the `createSplit` API route — split-contract configuration/resolution;
* the Neynar webhook ingestion route.

External services (Redis, Neynar, Pinata, Supabase, the chain) appear as
explicit oracle parameters describing the outcome of each remote call.
-/

namespace Mintos

/-! ## Queue store primitives (src/app/lib/redis.ts)

Redis lists are modelled as Lean lists whose head is the most recently
`LPUSH`ed element.  `lPush` inserts at the head, `rPop` removes from the
tail, `lRange 0 0` reads the head.  Items travel serialized; serialization
is irrelevant to ordering, so list elements are kept abstract. -/

/-- Model of `redis.lPush`: insert at the head of the list. -/
def lPush (l : List α) (x : α) : List α := x :: l

/-- Model of `redis.rPop`: remove and return the element at the tail of the list;
`none` on an empty list. -/
def rPop (l : List α) : Option (α × List α) :=
  match l.getLast? with
  | none => none
  | some x => some (x, l.dropLast)

/-- Queue insertion `enqueueCast`: pushes the (serialized) cast onto the head of
`mint_queue` via `LPUSH`. -/
def enqueueCast (q : List α) (x : α) : List α := lPush q x

/-- Queue removal `dequeueCast`: pops the tail of `mint_queue` via `RPOP`. -/
def dequeueCast (q : List α) : Option (α × List α) := rPop q

/-- Enqueue a batch of items in order (first element of `xs` first). -/
def enqueueAll (q : List α) (xs : List α) : List α := xs.foldl enqueueCast q

/-- Fuel-indexed repeated dequeue (the fuel only bounds the recursion). -/
def drainAux : Nat → List α → List α
  | 0, _ => []
  | fuel + 1, l =>
    match rPop l with
    | none => []
    | some (x, rest) => x :: drainAux fuel rest

/-- Repeatedly dequeue until the queue is empty, collecting the items in
dequeue order. -/
def drainQueue (l : List α) : List α := drainAux l.length l

/-- Equality is decidable on `Except` values with decidable components. -/
instance [DecidableEq ε] [DecidableEq α] : DecidableEq (Except ε α) := fun x y =>
  match x, y with
  | .ok a, .ok b =>
    if h : a = b then isTrue (by rw [h])
    else isFalse (fun hc => absurd (by injection hc) h)
  | .ok _, .error _ => isFalse (fun hc => Except.noConfusion hc)
  | .error _, .ok _ => isFalse (fun hc => Except.noConfusion hc)
  | .error e, .error f =>
    if h : e = f then isTrue (by rw [h])
    else isFalse (fun hc => absurd (by injection hc) h)

/-! ## JavaScript string model

JS strings are modelled as `List Char` so that every operation the sources
use (trim, toLowerCase, regex-like tests, UTF-8 byte length) is a plain
structurally-recursive function the kernel can evaluate. -/

/-- A JavaScript string. -/
abbrev JStr := List Char

/-- Coerce a Lean string literal to the JS string model. -/
def str (s : String) : JStr := s.data

/-- Model of `String.prototype.toLowerCase` (ASCII, which is all the sources use). -/
def jsToLower (s : JStr) : JStr := s.map Char.toLower

/-- The JS `\s` character class (the subset the command texts can contain). -/
def jsWhitespace (c : Char) : Bool :=
  c = ' ' || c = '\t' || c = '\n' || c = '\r' || c = '\x0b' || c = '\x0c'

/-- Model of `String.prototype.trim`. -/
def jsTrim (s : JStr) : JStr :=
  ((s.dropWhile jsWhitespace).reverse.dropWhile jsWhitespace).reverse

/-- JS truthiness of an optional string: `null`/`undefined` and `""` are falsy. -/
def isFalsy : Option JStr → Bool
  | none => true
  | some s => s.isEmpty

/-- Decimal rendering of a number, as interpolated into template strings. -/
def natRepr (n : Nat) : JStr := (toString n).data

/-! ## Webhook signature verification (src/app/lib/webhook.ts)

`crypto.timingSafeEqual` throws a `RangeError` when its two buffers have
different byte lengths; `Buffer.from` of a string yields its UTF-8 bytes.
The HMAC itself is a cryptographic primitive and is passed in as an oracle
`hmacSha256Hex : secret → message → hex digest`. -/

/-- UTF-8 byte length of a string (`Buffer.from(s).length`). -/
def utf8Len (s : JStr) : Nat := (s.map Char.utf8Size).sum

/-- Model of `crypto.timingSafeEqual(Buffer.from a, Buffer.from b)`: throws on
buffers of different byte length, otherwise compares contents. -/
def timingSafeEqual (a b : JStr) : Except JStr Bool :=
  if utf8Len a ≠ utf8Len b then
    .error (str "Input buffers must have the same byte length")
  else
    .ok (a = b)

/-- Model of `verifyWebhookSignature(payload, signature, timestamp, secret)`.
Returns `false` when the signature or timestamp header is missing (or
empty, which is falsy in JS); otherwise recomputes the HMAC over
`timestamp + "." + payload` and compares with `timingSafeEqual`, whose
exception propagates. -/
def verifyWebhookSignature (hmacSha256Hex : JStr → JStr → JStr)
    (payload : JStr) (signature timestamp : Option JStr) (secret : JStr) :
    Except JStr Bool :=
  if isFalsy signature || isFalsy timestamp then
    .ok false
  else
    let sig := signature.getD []
    let ts := timestamp.getD []
    let signaturePayload := ts ++ str "." ++ payload
    let expectedSignature := hmacSha256Hex secret signaturePayload
    timingSafeEqual sig expectedSignature

/-- A stand-in HMAC oracle for concrete evaluations: a constant 64-character
hex digest, matching the shape of a real SHA-256 hex digest. -/
def hmacConst64 : JStr → JStr → JStr := fun _ _ =>
  str "aaaaaaaaaaaaaaaaaaaaaaaaaaaaaaaaaaaaaaaaaaaaaaaaaaaaaaaaaaaaaaaa"

/-! ## Split-contract creation (the createSplit API route)

The route validates the two wallet addresses (trim, lowercase, match
`^0x[0-9a-f]{40}$`), builds the recipients list with the fixed shares, and
resolves the split idempotently against the 0xSplits client. -/

def PLATFORM_SHARE : Nat := 45
def CASTER_SHARE : Nat := 50
def MINTER_SHARE : Nat := 5
def EDITMINT_WALLET : JStr := str "0x9e1C8368d6773183e2E0b521e73a49D094D25818"

/-- One entry of `splitsConfig.recipients`. -/
structure SplitRecipient where
  address : JStr
  percentAllocation : Nat
deriving DecidableEq, Repr

/-- The configuration handed to the 0xSplits client. -/
structure SplitsConfig where
  recipients : List SplitRecipient
  distributorFeePercent : Nat
deriving DecidableEq, Repr

/-- The body of the regex `^0x[0-9a-f]{40}$`: every character is a decimal
digit or a lowercase hex letter. -/
def lowerHexChar (c : Char) : Bool := c.isDigit || ('a' ≤ c && c ≤ 'f')

/-- Test of `^0x[0-9a-f]\x7b40\x7d$` on an already trimmed/lowercased string. -/
def validAddressFormat (s : JStr) : Bool :=
  s.length = 42 && s.take 2 = str "0x" && (s.drop 2).all lowerHexChar

/-- Model of `validateAndConvertAddress`: trims and lowercases the input, then
requires the `^0x[0-9a-f]{40}$` shape; throws otherwise. -/
def validateAndConvertAddress (address : JStr) : Except JStr JStr :=
  let trimmedAddress := jsToLower (jsTrim address)
  if validAddressFormat trimmedAddress then
    .ok trimmedAddress
  else
    .error (str "Invalid wallet address format: " ++ address)

/-- The recipients construction: when the two (validated) addresses compare
equal after `toLowerCase`, the caster and minter shares are combined into a
single recipient alongside the platform wallet; otherwise three recipients. -/
def splitsConfigFor (casterAddress minterAddress : JStr) : SplitsConfig :=
  let isSameAddress := jsToLower casterAddress = jsToLower minterAddress
  if isSameAddress then
    { recipients := [⟨casterAddress, CASTER_SHARE + MINTER_SHARE⟩,
                     ⟨EDITMINT_WALLET, PLATFORM_SHARE⟩],
      distributorFeePercent := 0 }
  else
    { recipients := [⟨casterAddress, CASTER_SHARE⟩,
                     ⟨minterAddress, MINTER_SHARE⟩,
                     ⟨EDITMINT_WALLET, PLATFORM_SHARE⟩],
      distributorFeePercent := 0 }

/-- The createSplit route up to the point the splits client is called:
request-body presence check, address validation, config construction. -/
def createSplitConfig (casterWallet minterWallet : Option JStr) :
    Except JStr SplitsConfig :=
  if isFalsy casterWallet || isFalsy minterWallet then
    .error (str "Both casterWallet and minterWallet addresses are required")
  else do
    let casterAddress ← validateAndConvertAddress (casterWallet.getD [])
    let minterAddress ← validateAndConvertAddress (minterWallet.getD [])
    pure (splitsConfigFor casterAddress minterAddress)

/-- Oracle for the 0xSplits client and the chain: the outcome of
`predictImmutableSplitAddress` (deterministic address plus existence flag)
and the receipt hash of a deployment transaction. -/
structure SplitsChainWorld where
  predictAddress : SplitsConfig → JStr
  predictExists : SplitsConfig → Bool
  deployTxHash : SplitsConfig → JStr

/-- What the route returns for the split: the address and, only when a new
contract was deployed, the deployment transaction hash. -/
structure SplitOutcome where
  splitAddress : JStr
  transactionHash : Option JStr
deriving DecidableEq, Repr

/-- The split-resolution tail of the createSplit route: predict the
immutable split address; deploy only when it does not already exist; in
both branches the returned address is the predicted one. -/
def resolveSplit (w : SplitsChainWorld) (cfg : SplitsConfig) : SplitOutcome :=
  if w.predictExists cfg then
    { splitAddress := w.predictAddress cfg, transactionHash := none }
  else
    { splitAddress := w.predictAddress cfg,
      transactionHash := some (w.deployTxHash cfg) }

/-! ## Worker data model (src/app/workers/mint-worker.ts, src/app/lib/redis.ts)

A thrown/rejected JS value: `isError` records whether it is an
`instanceof Error` (the catch block of the worker branches on this), `name`
distinguishes `AbortError` (timeout aborts) from other errors. -/

structure JsErr where
  isError : Bool
  name : JStr
  message : JStr
deriving DecidableEq, Repr

/-- Build the `Error` the worker throws itself (`throw new Error(msg)`). -/
def jsError (msg : JStr) : JsErr := ⟨true, str "Error", msg⟩

/-- The slice of a `fetch` `Response` the worker inspects. -/
structure FetchResponse where
  ok : Bool
  status : Nat
deriving DecidableEq, Repr

/-- Model of `fetchWithRetry(url, options, retries)`: `attempts n` is the outcome of
the `n`-th underlying `fetch` (a timeout abort rejects with an `AbortError`).
A rejection is retried after a delay only while retries remain, the value is
an `instanceof Error`, and its name is not `AbortError`; otherwise it is
rethrown. -/
def fetchWithRetry (attempts : Nat → Except JsErr FetchResponse)
    (attempt : Nat) (retries : Nat) : Except JsErr FetchResponse :=
  match attempts attempt with
  | .ok r => .ok r
  | .error e =>
    match retries with
    | 0 => .error e
    | rs + 1 =>
      if e.isError = true ∧ e.name ≠ str "AbortError" then
        fetchWithRetry attempts (attempt + 1) rs
      else
        .error e

/-- A cast author as carried on queue items (`CastAuthor` in redis.ts);
`ethAddresses` is `verified_addresses.eth_addresses` flattened, possibly
empty. -/
structure CastAuthor where
  username : JStr
  fid : Nat
  ethAddresses : List JStr
deriving DecidableEq, Repr

/-- A queued work item (`QueuedCast` in redis.ts). `parentHash` is the
target of the mint and the deduplication key; `castHash` identifies the
triggering reply. -/
structure QueuedCast where
  castHash : JStr
  parentHash : JStr
  text : JStr
  author : CastAuthor
  parentAuthor : CastAuthor
  timestamp : JStr
deriving DecidableEq, Repr

/-- A failed-queue entry (`FailedMint` in redis.ts): the item plus the
error message and failure timestamp. -/
structure FailedMint where
  cast : QueuedCast
  error : JStr
  failedAt : JStr
deriving DecidableEq, Repr

/-- Model of `redis.sAdd`: set insertion (no duplicates). -/
def sAdd (s : List JStr) (x : JStr) : List JStr :=
  if x ∈ s then s else x :: s

/-- Model of `peekQueue`: `LRANGE mint_queue 0 0`, the head of the list or `none`. -/
def peekQueue (q : List α) : Option α := (q.take 1).head?

/-- The durable and in-process state the worker reads and writes:
`pending`/`failed` are the two Redis lists (head = most recent `LPUSH`),
`processedCasts` the dedup set, `history` the external `minted_casts`
store (as the list of recorded target hashes), and the rest mirrors the
mutable `queueHealth` object plus `lastProcessedTime`. -/
structure MintState where
  pending : List QueuedCast
  failed : List FailedMint
  processedCasts : List JStr
  history : List JStr
  status : JStr
  errors : List JStr
  failedMintsCount : Nat
  currentQueueSize : Nat
  lastProcessed : Option JStr
deriving DecidableEq, Repr

/-- Outcome of one external HTTP call made through `fetchWithRetry`:
either the retry chain rejected, or a response arrived (whose `ok`/
`status` the worker checks). -/
inductive StepOutcome where
  | reject (e : JsErr)
  | response (ok : Bool) (status : Nat)
deriving DecidableEq, Repr

/-- Oracle describing the outcomes of all remote operations one pipeline
run performs, in program order, plus the payload fields the worker reads
out of the responses. -/
structure RunWorld where
  /-- Neynar parent-cast fetch. -/
  parentFetch : StepOutcome
  /-- parsed body has a `cast` field -/
  parentCastFound : Bool
  /-- Neynar user/bulk fetch for the parent author. -/
  userFetch : StepOutcome
  /-- Value of `users[0]?.verified_addresses?.eth_addresses?.[0]` -/
  parentAuthorEth : Option JStr
  /-- createImage call. -/
  imageFetch : StepOutcome
  /-- Detail `errorJson.error || responseText || fallback` of a failed image call -/
  imageErrorDetail : JStr
  /-- ipfs metadata upload call. -/
  metadataFetch : StepOutcome
  /-- Detail `error.error || fallback` of a failed metadata call -/
  metadataErrorDetail : JStr
  /-- createSplit call. -/
  splitFetch : StepOutcome
  /-- Detail `error.error || fallback` of a failed split call -/
  splitErrorDetail : JStr
  /-- createToken call. -/
  tokenFetch : StepOutcome
  /-- Detail `error.error || fallback` of a failed token call -/
  tokenErrorDetail : JStr
  /-- Outcome of `storeMintedNFT` (Supabase insert into `minted_casts`). -/
  storeMintedNFT : Except JsErr Unit
  /-- Outcome of `markCastAsProcessed` (`SADD processed_casts`). -/
  markProcessed : Except JsErr Unit
  /-- Outcome of the `neynarClient.publishCast` confirmation reply. -/
  publishReply : Except JsErr Unit
  /-- Timestamp `new Date().toISOString()` at the end of the run. -/
  now : JStr
deriving Repr

/-- The pipeline steps strictly before the history write, in program
order: minter-address validation, parent-cast fetch and parse, parent
author fetch and address check, image creation, metadata upload, split
creation, token creation.  None of these steps writes worker state; the
value is the first error thrown, if any. -/
def pipelineBeforeRecord (data : QueuedCast) (w : RunWorld) : Except JsErr Unit :=
  match data.author.ethAddresses.head? with
  | none => .error (jsError (str "Minter has no verified ETH address"))
  | some _minterWallet =>
    match w.parentFetch with
    | .reject e => .error e
    | .response ok status =>
      if ok = false then
        .error (jsError (str "Failed to fetch parent cast: " ++ natRepr status))
      else if w.parentCastFound = false then
        .error (jsError (str "Parent cast not found"))
      else
        match w.userFetch with
        | .reject e => .error e
        | .response ok2 status2 =>
          if ok2 = false then
            .error (jsError
              (str "Failed to fetch parent author details: " ++ natRepr status2))
          else
            match w.parentAuthorEth with
            | none =>
              .error (jsError (str "Parent cast author has no verified ETH address"))
            | some _casterWallet =>
              match w.imageFetch with
              | .reject e => .error e
              | .response ok3 status3 =>
                if ok3 = false then
                  .error (jsError (str "Failed to create image (" ++ natRepr status3
                    ++ str "): " ++ w.imageErrorDetail))
                else
                  match w.metadataFetch with
                  | .reject e => .error e
                  | .response ok4 status4 =>
                    if ok4 = false then
                      .error (jsError (str "Failed to upload metadata to IPFS ("
                        ++ natRepr status4 ++ str "): " ++ w.metadataErrorDetail))
                    else
                      match w.splitFetch with
                      | .reject e => .error e
                      | .response ok5 status5 =>
                        if ok5 = false then
                          .error (jsError (str "Failed to create split contract ("
                            ++ natRepr status5 ++ str "): " ++ w.splitErrorDetail))
                        else
                          match w.tokenFetch with
                          | .reject e => .error e
                          | .response ok6 status6 =>
                            if ok6 = false then
                              .error (jsError (str "Failed to create token ("
                                ++ natRepr status6 ++ str "): " ++ w.tokenErrorDetail))
                            else
                              .ok ()

/-- The error/success result of the whole `try` block of one pipeline run:
the steps before the record, then the history write (`storeMintedNFT`), then the dedup mark
(`markCastAsProcessed`), then the confirmation reply. -/
def pipelineResult (data : QueuedCast) (w : RunWorld) : Except JsErr Unit :=
  match pipelineBeforeRecord data w with
  | .error e => .error e
  | .ok _ =>
    match w.storeMintedNFT with
    | .error e => .error e
    | .ok _ =>
      match w.markProcessed with
      | .error e => .error e
      | .ok _ => w.publishReply

/-- The durable writes the `try` block performs before any error is caught:
the history row is written when `storeMintedNFT` succeeds (which requires
all earlier steps to have succeeded first), and the dedup set is marked when
`markCastAsProcessed` additionally succeeds. -/
def pipelineEffects (data : QueuedCast) (w : RunWorld) (s : MintState) : MintState :=
  match pipelineBeforeRecord data w with
  | .error _ => s
  | .ok _ =>
    match w.storeMintedNFT with
    | .error _ => s
    | .ok _ =>
      let s1 := { s with history := data.parentHash :: s.history }
      match w.markProcessed with
      | .error _ => s1
      | .ok _ => { s1 with processedCasts := sAdd s1.processedCasts data.parentHash }

/-- One pipeline run over a dequeued item: the `try`/`catch` body of
`processQueueItem` from `isProcessing = true` to the end of the `catch`
block.  On success the health status becomes `success` and
`lastProcessed` is updated; on a caught error the status becomes `error`,
the message is pushed onto the health error list, and — only when the
thrown value is an `instanceof Error` — the item goes to the failed queue
with the message and the failure count is bumped. -/
def processDequeued (w : RunWorld) (data : QueuedCast) (s : MintState) : MintState :=
  let s0 := { s with status := str "processing" }
  let s1 := pipelineEffects data w s0
  match pipelineResult data w with
  | .ok _ =>
    { s1 with status := str "success", lastProcessed := some w.now }
  | .error e =>
    let s2 := { s1 with status := str "error", errors := s1.errors ++ [e.message] }
    if e.isError then
      { s2 with failed := lPush s2.failed ⟨data, e.message, w.now⟩,
                failedMintsCount := s2.failedMintsCount + 1 }
    else
      s2

/-- One invocation of `processQueueItem`: skip (without rescheduling) while
shutting down; reschedule as a no-op while a run is in flight; on an empty
queue go idle and reschedule; otherwise run the pipeline on the dequeued
item — the `finally` block reschedules in every outcome.  The returned
flag records whether the next poll was scheduled. -/
def processQueueItem (w : RunWorld) (isShuttingDown isProcessing : Bool)
    (s : MintState) : MintState × Bool :=
  if isShuttingDown then
    (s, false)
  else if isProcessing then
    (s, true)
  else
    match dequeueCast s.pending with
    | none => ({ s with status := str "idle", currentQueueSize := 0 }, true)
    | some (data, rest) => (processDequeued w data { s with pending := rest }, true)

/-- Model of `getHealthStatus`: on a successful read the snapshot carries
`currentQueueSize` computed from `peekQueue` (1 when an item is visible,
0 otherwise), the failed-list length, and `lastProcessedTime`; when the
read throws, the last-known state is returned annotated with the error
message. -/
def getHealthStatus (readErr : Option JsErr) (s : MintState)
    (lastProcessedTime : Option JStr) : MintState × Option JStr :=
  match readErr with
  | some e => (s, some e.message)
  | none =>
    ({ s with
        currentQueueSize := match peekQueue s.pending with
          | some _ => 1
          | none => 0,
        failedMintsCount := s.failed.length,
        lastProcessed := lastProcessedTime }, none)

/-! ## Webhook ingestion route (the Neynar webhook handler)

The handler reads the raw body with `request.text()`, parses it, and —
for `cast.created` events — checks reply-ness, the mint-command grammar,
the Neynar score of the author, parent-author presence, the dedup set and the
history store before enqueueing.  Neynar scores are modelled in hundredths
(the JS literal `0.69` becomes `69`). -/

/-- Test whether `s` matches `w1 \s+ w2` exactly (used for the `ok\s+banger` and
`@edit\s+mint` alternatives of the mint-command regex). -/
def matchWordsWs (s w1 w2 : JStr) : Bool :=
  if s.take w1.length = w1 then
    let rest := s.drop w1.length
    let ws := rest.takeWhile jsWhitespace
    let tail := rest.dropWhile jsWhitespace
    !ws.isEmpty && tail = w2
  else
    false

/-- The mint-command grammar `/^(!mint|ok\s+banger|@edit\s+mint)$/i` on the
(already trimmed) text. -/
def isMintCommand (t : JStr) : Bool :=
  let s := jsToLower t
  s = str "!mint" || matchWordsWs s (str "ok") (str "banger")
    || matchWordsWs s (str "@edit") (str "mint")

/-- The `cast.created` webhook payload fields the handler reads.  The
claimed score of the author is `experimental.neynar_user_score`, in hundredths;
`none` models an absent field. -/
structure WebhookEvent where
  type : JStr
  hash : JStr
  text : JStr
  parentHash : Option JStr
  author : CastAuthor
  authorScore : Option Nat
  parentAuthor : Option CastAuthor
  timestamp : JStr
deriving DecidableEq, Repr

/-- Check `!userScore || userScore < 0.69` (score in hundredths; a missing or
zero score is falsy). -/
def scoreTooLow : Option Nat → Bool
  | none => true
  | some n => n < 69

/-- What the ingestion endpoint produced for one request: the HTTP status,
the response message, and the item pushed onto the mint queue, if any. -/
structure IngestResult where
  status : Nat
  message : JStr
  enqueued : Option QueuedCast
deriving DecidableEq, Repr

/-- The queue item the handler builds from the payload. -/
def queueDataOf (p : WebhookEvent) (parentHash : JStr) : QueuedCast :=
  { castHash := p.hash
    parentHash := parentHash
    text := p.text
    author := p.author
    parentAuthor := p.parentAuthor.getD ⟨[], 0, []⟩
    timestamp := p.timestamp }

/-- The webhook ingestion `POST` handler.  `xNeynarSignature` is the
`x-neynar-signature` request header; the handler body never reads it.
`processedCasts` is the Redis dedup set, `existingMint` the history-store
lookup, and `storeFails` models a rejection of any of the store calls
inside the inner `try` (which the handler answers with a 500 and no
enqueue). -/
def webhookIngestPOST (signerConfigured : Bool) (_xNeynarSignature : Option JStr)
    (p : WebhookEvent) (processedCasts : List JStr) (existingMint : Option JStr)
    (storeFails : Bool) : IngestResult :=
  if signerConfigured = false then
    ⟨500, str "Server configuration error", none⟩
  else if p.type = str "cast.created" then
    let text := jsTrim p.text
    if isFalsy p.parentHash then
      ⟨200, str "Not a reply", none⟩
    else
      let parentHash := p.parentHash.getD []
      if isMintCommand text = false then
        ⟨200, str "Not a mint command", none⟩
      else if scoreTooLow p.authorScore then
        ⟨200, str "User score too low", none⟩
      else if p.parentAuthor = none then
        ⟨400, str "Parent cast data not found", none⟩
      else if storeFails then
        ⟨500, str "Failed to process mint command", none⟩
      else if parentHash ∈ processedCasts then
        ⟨200, str "Cast already processed", none⟩
      else
        match existingMint with
        | some _ => ⟨200, str "Returned existing mint", none⟩
        | none => ⟨200, str "Cast queued for minting", some (queueDataOf p parentHash)⟩
  else
    ⟨200, str "", none⟩

/-! ## Concrete fixtures for witnesses and counterexamples -/

def addrA : JStr := str "0x1111111111111111111111111111111111111111"
def addrB : JStr := str "0x2222222222222222222222222222222222222222"

def authorEx : CastAuthor :=
  { username := str "minty", fid := 7, ethAddresses := [addrA] }

def parentAuthorEx : CastAuthor :=
  { username := str "caster", fid := 8, ethAddresses := [addrB] }

def itemEx : QueuedCast :=
  { castHash := str "0xmintreply", parentHash := str "0xabc",
    text := str "!mint", author := authorEx, parentAuthor := parentAuthorEx,
    timestamp := str "2024-05-01T00:00:00Z" }

def stateEx : MintState :=
  { pending := [], failed := [], processedCasts := [], history := [],
    status := str "connected", errors := [], failedMintsCount := 0,
    currentQueueSize := 0, lastProcessed := none }

def okResponse : StepOutcome := .response true 200

def wAllOk : RunWorld :=
  { parentFetch := okResponse, parentCastFound := true,
    userFetch := okResponse, parentAuthorEth := some addrB,
    imageFetch := okResponse, imageErrorDetail := [],
    metadataFetch := okResponse, metadataErrorDetail := [],
    splitFetch := okResponse, splitErrorDetail := [],
    tokenFetch := okResponse, tokenErrorDetail := [],
    storeMintedNFT := .ok (), markProcessed := .ok (),
    publishReply := .ok (), now := str "2024-05-01T00:01:00Z" }

def wStoreFail : RunWorld :=
  { wAllOk with storeMintedNFT := .error (jsError (str "insert failed")) }

def publishErr : JsErr := jsError (str "rate limited")

def wPublishFail : RunWorld :=
  { wAllOk with publishReply := .error publishErr }

/-- A promise rejection whose value is not an `instanceof Error`. -/
def nonErrorThrow : JsErr :=
  { isError := false, name := [], message := str "socket hang up" }

def wNonErrorReject : RunWorld :=
  { wAllOk with parentFetch := .reject nonErrorThrow }

/-- The rejection a timed-out `fetch` produces after `controller.abort()`. -/
def abortErr : JsErr :=
  { isError := true, name := str "AbortError",
    message := str "This operation was aborted" }

/-- An attempt oracle whose first call times out and whose later calls all
succeed. -/
def attemptsEx : Nat → Except JsErr FetchResponse
  | 0 => .error abortErr
  | _ + 1 => .ok { ok := true, status := 200 }

def webhookEventEx : WebhookEvent :=
  { type := str "cast.created", hash := str "0xmintreply",
    text := str "!mint", parentHash := some (str "0xabc"),
    author := authorEx, authorScore := some 95,
    parentAuthor := some parentAuthorEx,
    timestamp := str "2024-05-01T00:00:00Z" }

def splitsWorldEx : SplitsChainWorld :=
  { predictAddress := fun _ => addrB, predictExists := fun _ => true,
    deployTxHash := fun _ => str "0xdeadbeef" }

def splitsCfgEx : SplitsConfig := splitsConfigFor addrA addrB

def stateTwoPending : MintState := { stateEx with pending := [itemEx, itemEx] }

/-! ## Helper lemmas -/

theorem enqueueAll_eq_reverse_append (xs q : List α) :
    enqueueAll q xs = xs.reverse ++ q := by
  induction xs generalizing q with
  | nil => simp [enqueueAll]
  | cons x xs ih =>
    show List.foldl enqueueCast (enqueueCast q x) xs = _
    rw [show List.foldl enqueueCast (enqueueCast q x) xs
          = enqueueAll (x :: q) xs from rfl, ih]
    simp

theorem drainAux_eq_reverse (fuel : Nat) :
    ∀ l : List α, l.length ≤ fuel → drainAux fuel l = l.reverse := by
  induction fuel with
  | zero =>
    intro l h
    have hl : l = [] := List.eq_nil_of_length_eq_zero (Nat.le_zero.mp h)
    subst hl; rfl
  | succ n ih =>
    intro l h
    cases l using List.reverseRecOn with
    | nil => rfl
    | append_singleton xs x =>
      have hp : rPop (xs ++ [x]) = some (x, xs) := by
        simp [rPop, List.getLast?_concat]
      simp only [drainAux, hp]
      rw [ih xs (by simp at h; omega)]
      simp

theorem toLower_eq_self_of_lowerHex {c : Char} (h : lowerHexChar c = true) :
    Char.toLower c = c := by
  simp only [lowerHexChar, Bool.or_eq_true, Bool.and_eq_true,
    decide_eq_true_eq] at h
  unfold Char.toLower
  rcases h with h | ⟨h1, h2⟩
  · have hle : c.toNat ≤ 57 := by
      simp [Char.isDigit, Char.le_def, decide_eq_true_eq] at h
      exact h.2
    rw [if_neg (by omega)]
  · have hge : 97 ≤ c.toNat := by
      simp [Char.le_def] at h1
      exact h1
    rw [if_neg (by omega)]

theorem jsToLower_eq_self_of_validFormat {s : JStr}
    (h : validAddressFormat s = true) : jsToLower s = s := by
  simp only [validAddressFormat, Bool.and_eq_true, decide_eq_true_eq] at h
  obtain ⟨⟨hlen, htake⟩, hall⟩ := h
  have hfix : jsToLower (s.drop 2) = s.drop 2 := by
    have hmem : ∀ c ∈ s.drop 2, Char.toLower c = c := fun c hc =>
      toLower_eq_self_of_lowerHex (by
        have := List.all_eq_true.mp hall c hc
        simpa using this)
    calc jsToLower (s.drop 2) = (s.drop 2).map id := List.map_congr_left hmem
      _ = s.drop 2 := List.map_id _
  calc jsToLower s = jsToLower (s.take 2 ++ s.drop 2) := by
        rw [List.take_append_drop]
    _ = jsToLower (s.take 2) ++ jsToLower (s.drop 2) := by
        simp [jsToLower]
    _ = s.take 2 ++ s.drop 2 := by
        rw [htake, hfix]
        rfl
    _ = s := List.take_append_drop 2 s

theorem validate_ok_props {input out : JStr}
    (h : validateAndConvertAddress input = .ok out) :
    out = jsToLower (jsTrim input) ∧ validAddressFormat out = true
      ∧ input ≠ [] := by
  unfold validateAndConvertAddress at h
  dsimp only at h
  split at h
  · rename_i hfmt
    cases h
    refine ⟨rfl, hfmt, ?_⟩
    intro hnil
    subst hnil
    exact absurd hfmt (by decide)
  · cases h

/-! ## Claim theorems -/

/-- C5: the queue is strictly first-in-first-out — `enqueueCast` pushes the
item to the head of the pending list, `dequeueCast` pops from the tail, and
draining a queue built by enqueueing `xs` in order returns exactly `xs` in
order, so an item enqueued earlier is dequeued earlier. -/
theorem queue_fifo_order :
    (∀ (q : List QueuedCast) (x : QueuedCast), enqueueCast q x = x :: q)
  ∧ (∀ q : List QueuedCast, (dequeueCast q).map Prod.fst = q.getLast?)
  ∧ (∀ xs : List QueuedCast, drainQueue (enqueueAll [] xs) = xs) := by
  refine ⟨fun q x => rfl, fun q => ?_, fun xs => ?_⟩
  · cases h : q.getLast? <;> simp [dequeueCast, rPop, h]
  · rw [enqueueAll_eq_reverse_append]
    simp only [List.append_nil]
    unfold drainQueue
    rw [drainAux_eq_reverse _ _ (Nat.le_refl _)]
    simp

/-- C7: the split step builds the fixed 50/5/45 distribution from the two
validated payable addresses, and when the two addresses are equal
(case-insensitively, i.e. equal after validation lowercases them) the
caster and minter shares combine into 55 and exactly two recipients
remain, the platform keeping 45. -/
theorem split_shares_fixed (cw mw c m : JStr)
    (hc : validateAndConvertAddress cw = .ok c)
    (hm : validateAndConvertAddress mw = .ok m) :
    createSplitConfig (some cw) (some mw) = .ok (splitsConfigFor c m)
  ∧ (c = m → (splitsConfigFor c m).recipients
      = [⟨c, 55⟩, ⟨EDITMINT_WALLET, 45⟩])
  ∧ (c ≠ m → (splitsConfigFor c m).recipients
      = [⟨c, 50⟩, ⟨m, 5⟩, ⟨EDITMINT_WALLET, 45⟩]) := by
  obtain ⟨hcdef, hcfmt, hcne⟩ := validate_ok_props hc
  obtain ⟨hmdef, hmfmt, hmne⟩ := validate_ok_props hm
  refine ⟨?_, ?_, ?_⟩
  · have h1 : isFalsy (some cw) = false := by
      cases cw with
      | nil => exact absurd rfl hcne
      | cons a as => rfl
    have h2 : isFalsy (some mw) = false := by
      cases mw with
      | nil => exact absurd rfl hmne
      | cons a as => rfl
    unfold createSplitConfig
    rw [h1, h2]
    simp only [Bool.or_self, Bool.false_eq_true, if_false, Option.getD_some]
    rw [hc, hm]
    rfl
  · intro heq
    subst heq
    unfold splitsConfigFor
    rw [if_pos rfl]
    rfl
  · intro hne
    unfold splitsConfigFor
    have hcontra : ¬(jsToLower c = jsToLower m) := by
      rw [jsToLower_eq_self_of_validFormat hcfmt,
          jsToLower_eq_self_of_validFormat hmfmt]
      exact hne
    rw [if_neg hcontra]
    rfl

/-- Closed instantiation of `split_shares_fixed` for the equal-address case
at a concrete validated address. -/
theorem split_shares_fixed_witness :
    createSplitConfig (some addrA) (some addrA) = .ok (splitsConfigFor addrA addrA)
  ∧ (splitsConfigFor addrA addrA).recipients
      = [⟨addrA, 55⟩, ⟨EDITMINT_WALLET, 45⟩] := by
  have h := split_shares_fixed addrA addrA addrA addrA (by decide) (by decide)
  exact ⟨h.1, h.2.1 rfl⟩

/-- C8: split resolution is idempotent — the returned split address is, in
both the deploy and the reuse branch, the deterministically predicted
address for the configuration, so two runs over the same configuration
(with the prediction stable across the runs) return the same address; and
when the split already exists no deployment transaction is submitted. -/
theorem split_resolution_idempotent (w1 w2 : SplitsChainWorld)
    (cfg : SplitsConfig)
    (hdet : w1.predictAddress cfg = w2.predictAddress cfg) :
    (resolveSplit w1 cfg).splitAddress = (resolveSplit w2 cfg).splitAddress
  ∧ (w1.predictExists cfg = true →
      (resolveSplit w1 cfg).transactionHash = none) := by
  unfold resolveSplit
  constructor
  · by_cases h1 : w1.predictExists cfg = true <;>
      by_cases h2 : w2.predictExists cfg = true <;>
        simp [h1, h2, hdet]
  · intro h
    simp [h]

/-- Closed instantiation of `split_resolution_idempotent` at a concrete
world in which the split already exists. -/
theorem split_resolution_idempotent_witness :
    (resolveSplit splitsWorldEx splitsCfgEx).splitAddress
      = (resolveSplit splitsWorldEx splitsCfgEx).splitAddress
  ∧ (resolveSplit splitsWorldEx splitsCfgEx).transactionHash = none := by
  have h := split_resolution_idempotent splitsWorldEx splitsWorldEx splitsCfgEx rfl
  exact ⟨h.1, h.2 rfl⟩

/-- C9 counterexample: with two items in the pending list the health
snapshot reports `currentQueueSize = 1`, not the queue depth 2 — the claim
that `currentQueueSize` equals the number of pending items is false. -/
theorem currentQueueSize_not_depth_counterexample :
    stateTwoPending.pending.length = 2
  ∧ (getHealthStatus none stateTwoPending none).1.currentQueueSize = 1
  ∧ (getHealthStatus none stateTwoPending none).1.currentQueueSize
      ≠ stateTwoPending.pending.length := by decide

/-- C9 amended: the `currentQueueSize` field of the health snapshot is an emptiness
indicator computed from a one-element peek — `min (depth) 1` — and in
particular it is `0` exactly when the pending list is empty. -/
theorem currentQueueSize_indicator_amended (s : MintState) (lp : Option JStr) :
    (getHealthStatus none s lp).1.currentQueueSize = min s.pending.length 1
  ∧ ((getHealthStatus none s lp).1.currentQueueSize = 0 ↔ s.pending = []) := by
  unfold getHealthStatus peekQueue
  rcases s with ⟨pending, f, p, hi, st, er, fc, cq, lpr⟩
  cases pending with
  | nil => simp
  | cons a as => simp

/-- C10 counterexample: an empty (but supplied) signature header has UTF-8
byte length 0, different from the 64-byte hex digest, yet
`verifyWebhookSignature` returns `false` instead of throwing, because the
JS falsiness guard treats the empty string like a missing header — the
claim that the comparison raises whenever the byte length differs is false
at the empty string. -/
theorem empty_signature_returns_false_counterexample :
    utf8Len [] ≠ 64
  ∧ verifyWebhookSignature hmacConst64 (str "tampered payload")
      (some []) (some (str "1715000000")) (str "secret") = .ok false := by
  decide

/-- C10 amended: for every supplied non-empty signature (with a non-empty
timestamp, so the comparison is reached) whose UTF-8 byte length differs
from the 64-character hex digest, `verifyWebhookSignature` throws the
unequal-length `timingSafeEqual` error instead of returning `false`. -/
theorem wrong_length_signature_throws_amended
    (hmac : JStr → JStr → JStr) (payload sig ts secret : JStr)
    (hdigest : utf8Len (hmac secret (ts ++ str "." ++ payload)) = 64)
    (hsig : sig ≠ []) (hts : ts ≠ []) (hlen : utf8Len sig ≠ 64) :
    verifyWebhookSignature hmac payload (some sig) (some ts) secret
      = .error (str "Input buffers must have the same byte length") := by
  unfold verifyWebhookSignature
  have h1 : isFalsy (some sig) = false := by
    cases sig with
    | nil => exact absurd rfl hsig
    | cons a as => rfl
  have h2 : isFalsy (some ts) = false := by
    cases ts with
    | nil => exact absurd rfl hts
    | cons a as => rfl
  rw [h1, h2]
  simp only [Bool.or_self, Bool.false_eq_true, if_false, Option.getD_some]
  unfold timingSafeEqual
  rw [if_pos (by rw [hdigest]; exact hlen)]

/-- Closed instantiation of `wrong_length_signature_throws_amended` at a
concrete 3-byte signature. -/
theorem wrong_length_signature_throws_amended_witness :
    verifyWebhookSignature hmacConst64 (str "payload")
      (some (str "abc")) (some (str "1715000000")) (str "secret")
      = .error (str "Input buffers must have the same byte length") :=
  wrong_length_signature_throws_amended hmacConst64 (str "payload")
    (str "abc") (str "1715000000") (str "secret")
    (by decide) (by decide) (by decide) (by decide)

/-- C6 counterexample: a timed-out call rejects with an `AbortError`, and
`fetchWithRetry` rethrows it immediately even though retries remain and the
very next attempt would succeed — the timeout error does not trigger the
local retry policy. -/
theorem timeout_not_retried_counterexample :
    fetchWithRetry attemptsEx 0 3 = .error abortErr
  ∧ attemptsEx 1 = .ok { ok := true, status := 200 }
  ∧ abortErr.name = str "AbortError"
  ∧ abortErr.isError = true := by
  decide

/-- C6 amended: a timeout aborts the call and surfaces an `AbortError`
distinct from transport-level failures, but that error is excluded from
the local retry policy — `fetchWithRetry` rethrows it unchanged without
retrying, while a non-abort `instanceof Error` rejection with retries
remaining is retried. -/
theorem abort_error_not_retried_amended
    (attempts : Nat → Except JsErr FetchResponse)
    (attempt retries : Nat) (e : JsErr)
    (hfail : attempts attempt = .error e) :
    (e.name = str "AbortError" →
      fetchWithRetry attempts attempt retries = .error e)
  ∧ (∀ rs, retries = rs + 1 → e.isError = true → e.name ≠ str "AbortError" →
      fetchWithRetry attempts attempt retries
        = fetchWithRetry attempts (attempt + 1) rs) := by
  constructor
  · intro habort
    unfold fetchWithRetry
    rw [hfail]
    cases retries with
    | zero => rfl
    | succ rs =>
      dsimp only
      rw [if_neg (fun hand => hand.2 habort)]
  · intro rs hr hisErr hne
    subst hr
    conv_lhs => unfold fetchWithRetry
    rw [hfail]
    dsimp only
    rw [if_pos ⟨hisErr, hne⟩]

/-- Closed instantiation of `abort_error_not_retried_amended` at the
concrete timeout world. -/
theorem abort_error_not_retried_amended_witness :
    fetchWithRetry attemptsEx 0 5 = .error abortErr :=
  (abort_error_not_retried_amended attemptsEx 0 5 abortErr (by decide)).1
    (by decide)

/-- C3 (code bug): the ingestion handler never reads the
`x-neynar-signature` header — for every value of the header, including one
that does not match the (tampered) body, the concrete mint-command request
is accepted with status 200 and enqueued; `verifyWebhookSignature` is never
invoked on the request. -/
theorem webhook_signature_never_checked :
    ∀ sigHeader : Option JStr,
      webhookIngestPOST true sigHeader webhookEventEx [] none false
        = { status := 200, message := str "Cast queued for minting",
            enqueued := some (queueDataOf webhookEventEx (str "0xabc")) } := by
  intro sigHeader
  rfl


theorem mem_sAdd_elim {s : List JStr} {p h : JStr}
    (hmem : h ∈ sAdd s p) (hnmem : h ∉ s) : h = p := by
  unfold sAdd at hmem
  by_cases hps : p ∈ s
  · rw [if_pos hps] at hmem
    exact absurd hmem hnmem
  · rw [if_neg hps] at hmem
    rcases List.mem_cons.mp hmem with rfl | hmem2
    · rfl
    · exact absurd hmem2 hnmem

/-- C1: the dedup set (`processed_casts`) is marked for the target of the item
only after the MintRecord has been durably written to the history store:
if the pipeline fails at any step up to and including the history write,
the dedup set is unchanged by the run, and any hash newly present in the
dedup set after a run is the target of the item, already present in the
history store, with the history write having succeeded. -/
theorem dedup_marked_only_after_history_write
    (w : RunWorld) (data : QueuedCast) (s : MintState) :
    (¬(pipelineBeforeRecord data w = .ok () ∧ w.storeMintedNFT = .ok ()) →
      (processDequeued w data s).processedCasts = s.processedCasts)
  ∧ (∀ h, h ∈ (processDequeued w data s).processedCasts →
      h ∉ s.processedCasts →
      h = data.parentHash
        ∧ h ∈ (processDequeued w data s).history
        ∧ pipelineBeforeRecord data w = .ok () ∧ w.storeMintedNFT = .ok ()) := by
  simp only [processDequeued, pipelineEffects, pipelineResult]
  cases hpre : pipelineBeforeRecord data w with
  | error e =>
    refine ⟨fun _ => ?_, fun h hmem hnmem => ?_⟩
    · cases he : e.isError <;> simp [he]
    · cases he : e.isError <;> simp [he] at hmem <;> exact absurd hmem hnmem
  | ok u =>
    cases u
    cases hs : w.storeMintedNFT with
    | error e =>
      refine ⟨fun _ => ?_, fun h hmem hnmem => ?_⟩
      · cases he : e.isError <;> simp [he]
      · cases he : e.isError <;> simp [he] at hmem <;> exact absurd hmem hnmem
    | ok u2 =>
      cases u2
      cases hm : w.markProcessed with
      | error e =>
        refine ⟨fun hna => absurd ⟨rfl, rfl⟩ hna, fun h hmem hnmem => ?_⟩
        cases he : e.isError <;> simp [he] at hmem <;> exact absurd hmem hnmem
      | ok u3 =>
        cases u3
        cases hp : w.publishReply with
        | ok u4 =>
          refine ⟨fun hna => absurd ⟨rfl, rfl⟩ hna, fun h hmem hnmem => ?_⟩
          simp at hmem
          obtain rfl : h = data.parentHash := mem_sAdd_elim hmem hnmem
          exact ⟨rfl, by simp, rfl, rfl⟩
        | error e =>
          refine ⟨fun hna => absurd ⟨rfl, rfl⟩ hna, fun h hmem hnmem => ?_⟩
          cases he : e.isError <;> simp [he] at hmem
          all_goals
            obtain rfl : h = data.parentHash := mem_sAdd_elim hmem hnmem
          all_goals exact ⟨rfl, by simp [he], rfl, rfl⟩

/-- Closed instantiation of `dedup_marked_only_after_history_write`: with a
failing history write the dedup set is unchanged. -/
theorem dedup_marked_only_after_history_write_witness :
    (processDequeued wStoreFail itemEx stateEx).processedCasts
      = stateEx.processedCasts :=
  (dedup_marked_only_after_history_write wStoreFail itemEx stateEx).1
    (by decide)

theorem pipelineEffects_pending (data : QueuedCast) (w : RunWorld)
    (s : MintState) : (pipelineEffects data w s).pending = s.pending := by
  unfold pipelineEffects
  cases pipelineBeforeRecord data w <;> cases w.storeMintedNFT <;>
    cases w.markProcessed <;> simp

theorem pipelineEffects_failed (data : QueuedCast) (w : RunWorld)
    (s : MintState) : (pipelineEffects data w s).failed = s.failed := by
  unfold pipelineEffects
  cases pipelineBeforeRecord data w <;> cases w.storeMintedNFT <;>
    cases w.markProcessed <;> simp

theorem pipelineEffects_errors (data : QueuedCast) (w : RunWorld)
    (s : MintState) : (pipelineEffects data w s).errors = s.errors := by
  unfold pipelineEffects
  cases pipelineBeforeRecord data w <;> cases w.storeMintedNFT <;>
    cases w.markProcessed <;> simp

theorem pipelineEffects_count (data : QueuedCast) (w : RunWorld)
    (s : MintState) :
    (pipelineEffects data w s).failedMintsCount = s.failedMintsCount := by
  unfold pipelineEffects
  cases pipelineBeforeRecord data w <;> cases w.storeMintedNFT <;>
    cases w.markProcessed <;> simp

/-- C2 counterexample: when only the confirmation reply fails (the mint,
the history write and the dedup mark all succeeded), the catch
block still appends the item to the failed list and sets the health status
to `error` — the claim that a notification failure is only logged, keeps
the item off the failed list and counts the run as a success is false. -/
theorem notify_failure_fails_run_counterexample :
    pipelineBeforeRecord itemEx wPublishFail = .ok ()
  ∧ wPublishFail.storeMintedNFT = .ok ()
  ∧ wPublishFail.markProcessed = .ok ()
  ∧ wPublishFail.publishReply = .error publishErr
  ∧ (processDequeued wPublishFail itemEx stateEx).failed
      = [⟨itemEx, publishErr.message, wPublishFail.now⟩]
  ∧ (processDequeued wPublishFail itemEx stateEx).failed ≠ stateEx.failed
  ∧ (processDequeued wPublishFail itemEx stateEx).status = str "error" := by
  decide

/-- C2 corrected: a notification failure after a fully successful mint is
handled like any other pipeline error — the item is appended to the failed
list with the failure reason, the failure count is bumped, and the status
becomes `error` — while the already-performed history write and dedup mark
are not rolled back. -/
theorem notify_failure_appends_failed_amended
    (w : RunWorld) (data : QueuedCast) (s : MintState) (e : JsErr)
    (hpre : pipelineBeforeRecord data w = .ok ())
    (hstore : w.storeMintedNFT = .ok ())
    (hmark : w.markProcessed = .ok ())
    (hpub : w.publishReply = .error e)
    (hinst : e.isError = true) :
    (processDequeued w data s).status = str "error"
  ∧ (processDequeued w data s).failed = ⟨data, e.message, w.now⟩ :: s.failed
  ∧ (processDequeued w data s).failedMintsCount = s.failedMintsCount + 1
  ∧ (processDequeued w data s).errors = s.errors ++ [e.message]
  ∧ (processDequeued w data s).processedCasts
      = sAdd s.processedCasts data.parentHash
  ∧ (processDequeued w data s).history = data.parentHash :: s.history := by
  simp only [processDequeued, pipelineEffects, pipelineResult,
    hpre, hstore, hmark, hpub, hinst]
  simp [lPush]

/-- Closed instantiation of `notify_failure_appends_failed_amended` at the
concrete publish-failure world. -/
theorem notify_failure_appends_failed_amended_witness :
    (processDequeued wPublishFail itemEx stateEx).status = str "error"
  ∧ (processDequeued wPublishFail itemEx stateEx).failed
      = ⟨itemEx, publishErr.message, wPublishFail.now⟩ :: stateEx.failed
  ∧ (processDequeued wPublishFail itemEx stateEx).failedMintsCount
      = stateEx.failedMintsCount + 1
  ∧ (processDequeued wPublishFail itemEx stateEx).errors
      = stateEx.errors ++ [publishErr.message]
  ∧ (processDequeued wPublishFail itemEx stateEx).processedCasts
      = sAdd stateEx.processedCasts itemEx.parentHash
  ∧ (processDequeued wPublishFail itemEx stateEx).history
      = itemEx.parentHash :: stateEx.history :=
  notify_failure_appends_failed_amended wPublishFail itemEx stateEx publishErr
    (by decide) (by decide) (by decide) (by decide) (by decide)

/-- C4 counterexample: when the parent-cast fetch rejects with a value
that is not an `instanceof Error`, the pipeline run fails but the item is
NOT appended to the failed list (the catch block guards the failed-queue
write with `instanceof Error`) — the claim that every pipeline error lands
the item on the failed list is false. -/
theorem non_error_throw_skips_failed_list_counterexample :
    pipelineResult itemEx wNonErrorReject = .error nonErrorThrow
  ∧ nonErrorThrow.isError = false
  ∧ (processQueueItem wNonErrorReject false false
        { stateEx with pending := [itemEx] }).1.failed = stateEx.failed
  ∧ (processQueueItem wNonErrorReject false false
        { stateEx with pending := [itemEx] }).1.status = str "error"
  ∧ (processQueueItem wNonErrorReject false false
        { stateEx with pending := [itemEx] }).1.errors
      = stateEx.errors ++ [nonErrorThrow.message] := by
  decide

/-- C4 corrected: every pipeline error for a dequeued item is caught — the
item is never re-pushed to the pending list, the message is recorded in
the health error list, the status becomes `error`, and the loop schedules
the next poll — but the item is appended to the failed list (with its
failure reason) only when the thrown value is an `instanceof Error`; a
non-`Error` rejection leaves the failed list unchanged. -/
theorem pipeline_error_handling_amended
    (w : RunWorld) (s : MintState) (data : QueuedCast)
    (rest : List QueuedCast) (e : JsErr)
    (hpop : dequeueCast s.pending = some (data, rest))
    (herr : pipelineResult data w = .error e) :
    (processQueueItem w false false s).2 = true
  ∧ (processQueueItem w false false s).1.pending = rest
  ∧ (processQueueItem w false false s).1.errors = s.errors ++ [e.message]
  ∧ (processQueueItem w false false s).1.status = str "error"
  ∧ (e.isError = true →
      (processQueueItem w false false s).1.failed
        = ⟨data, e.message, w.now⟩ :: s.failed)
  ∧ (e.isError = false →
      (processQueueItem w false false s).1.failed = s.failed) := by
  have hrun : processQueueItem w false false s
      = (processDequeued w data { s with pending := rest }, true) := by
    simp [processQueueItem, hpop]
  rw [hrun]
  simp only [processDequeued, herr]
  cases hei : e.isError <;>
    simp [hei, lPush, pipelineEffects_pending, pipelineEffects_failed,
      pipelineEffects_errors, pipelineEffects_count]

/-- Closed instantiation of `pipeline_error_handling_amended` at the
concrete non-`Error` rejection world. -/
theorem pipeline_error_handling_amended_witness :
    (processQueueItem wNonErrorReject false false
        { stateEx with pending := [itemEx] }).2 = true
  ∧ (processQueueItem wNonErrorReject false false
        { stateEx with pending := [itemEx] }).1.pending = []
  ∧ (processQueueItem wNonErrorReject false false
        { stateEx with pending := [itemEx] }).1.errors
      = stateEx.errors ++ [nonErrorThrow.message]
  ∧ (processQueueItem wNonErrorReject false false
        { stateEx with pending := [itemEx] }).1.status = str "error"
  ∧ (nonErrorThrow.isError = true →
      (processQueueItem wNonErrorReject false false
          { stateEx with pending := [itemEx] }).1.failed
        = ⟨itemEx, nonErrorThrow.message, wNonErrorReject.now⟩ :: stateEx.failed)
  ∧ (nonErrorThrow.isError = false →
      (processQueueItem wNonErrorReject false false
          { stateEx with pending := [itemEx] }).1.failed = stateEx.failed) := by
  have h := pipeline_error_handling_amended wNonErrorReject
    { stateEx with pending := [itemEx] } itemEx [] nonErrorThrow
    (by decide) (by decide)
  exact h


end Mintos
